import Mathlib

/-!
# LedgerProject: a shallow embedding of the double-entry ledger engine

This file embeds the core ledger engine of `ledgerproject` (package
`ledger`, file `ledger/ledger.go`, with the data model from
`models/money.go`, `models/transaction.go` and `models/account.go`) into
Lean 4 and proves properties of its operations.

Modelling choices:
* `decimal.Decimal` (shopspring) is an exact arbitrary-precision decimal.
  Its `Add`, `Sub`, `LessThan` and `IsZero` are exact, so amounts are
  modelled as `ℚ` (every decimal is a rational, and the four operations
  used by the engine agree with the rational ones).
* The Go `map[string]*models.Account` is modelled as an association list
  `List (String × Account)`; `CreateAccount` inserts a fresh key at the
  end, and balance mutation through an account pointer is modelled by
  updating the first entry carrying the key (Go maps have unique keys).
* The injected `CurrencyValidator.IsValid` predicate is membership in the
  state's `validCurrencies` list (the validator holds a set of ISO 4217
  codes loaded at construction).
* Timestamps (`CreateDateTime`, `DateTime`) are set from the wall clock
  and affect no claim here, so they are omitted from the structures.
* A Go method that mutates the receiver and returns an `error` is
  modelled as a function returning the (possibly unchanged) new state
  together with an optional error.
-/

namespace LedgerProject

/-- Model of `models.Money`: a signed exact-decimal amount tagged with a currency
code. -/
structure Money where
  amount : ℚ
  currency : String
  deriving Repr, DecidableEq

/-- Model of `models.Account` (timestamp omitted, see the header comment). -/
structure Account where
  id : String
  name : String
  balance : Money
  type : String
  currency : String
  deriving Repr, DecidableEq

/-- Model of `models.Transaction` (timestamp omitted, see the header comment). -/
structure Transaction where
  id : String
  description : String
  debitAccount : String
  creditAccount : String
  amount : Money
  deriving Repr, DecidableEq

/-- The error taxonomy of the engine (each constructor corresponds to one
`fmt.Errorf` site in `ledger.go`, carrying the data interpolated into the
message). -/
inductive LError where
  | accountExists (id : String)
  | invalidCurrency (code : String)
  | balanceCurrencyMismatch (balanceCurrency accountCurrency : String)
  | debitAccountNotFound (id : String)
  | creditAccountNotFound (id : String)
  | currencyMismatch
  | insufficientFunds (id : String)
  | unbalanced (difference : ℚ) (currency : String)
  | accountNotFound (id : String)
  deriving Repr, DecidableEq

/-- The `ledger` struct: the account map (as an association list), the
transaction log, and the injected currency validator (as its set of valid
codes). -/
structure LState where
  accounts : List (String × Account)
  transactions : List Transaction
  validCurrencies : List String
  deriving Repr, DecidableEq

/-- Lookup in the account map (`l.accounts[id]`). -/
def lookupA : List (String × Account) → String → Option Account
  | [], _ => none
  | p :: rest, i => if p.1 = i then some p.2 else lookupA rest i

/-- Mutation of one account's balance amount through its pointer:
update the (unique) entry carrying key `i`, applying `g` to its balance
amount.  Currency, name, type and id are untouched. -/
def updBal : List (String × Account) → String → (ℚ → ℚ) → List (String × Account)
  | [], _, _ => []
  | p :: rest, i, g =>
    if p.1 = i then
      (p.1, { p.2 with balance := ⟨g p.2.balance.amount, p.2.balance.currency⟩ }) :: rest
    else
      p :: updBal rest i g

/-- Model of `CreateAccount` (ledger.go).  Checks, in order: duplicate id, currency
validity; then either normalizes a zero opening balance to the account's
currency or rejects a non-zero balance in a different currency. -/
def createAccount (s : LState) (account : Account) : Option LError × LState :=
  match lookupA s.accounts account.id with
  | some _ => (some (.accountExists account.id), s)
  | none =>
    if account.currency ∈ s.validCurrencies then
      if account.balance.amount = 0 then
        let stored : Account := { account with balance := ⟨0, account.currency⟩ }
        (none, { s with accounts := s.accounts ++ [(account.id, stored)] })
      else if account.balance.currency ≠ account.currency then
        (some (.balanceCurrencyMismatch account.balance.currency account.currency), s)
      else
        (none, { s with accounts := s.accounts ++ [(account.id, account)] })
    else
      (some (.invalidCurrency account.currency), s)

/-- Reading an account's current balance amount back through its pointer
(always preceded by a successful lookup in the engine; the `none` branch
is unreachable there). -/
def balRead (l : List (String × Account)) (i : String) : ℚ :=
  match lookupA l i with
  | some a => a.balance.amount
  | none => 0

/-- Model of `RecordTransaction` (ledger.go).  Checks, in order: debit account
exists, credit account exists, both currencies match the transaction's,
sufficient funds in the debit account.  Then both balances are mutated
through the account pointers, the post-mutation net change is recomputed
from the mutated balances, and either the mutation is rolled back (net
change nonzero) or the transaction is appended to the log. -/
def recordTransaction (s : LState) (tx : Transaction) : Option LError × LState :=
  match lookupA s.accounts tx.debitAccount with
  | none => (some (.debitAccountNotFound tx.debitAccount), s)
  | some debitAcc =>
    let initialDebitBalance := debitAcc.balance.amount
    match lookupA s.accounts tx.creditAccount with
    | none => (some (.creditAccountNotFound tx.creditAccount), s)
    | some creditAcc =>
      let initialCreditBalance := creditAcc.balance.amount
      if debitAcc.currency ≠ tx.amount.currency ∨ creditAcc.currency ≠ tx.amount.currency then
        (some .currencyMismatch, s)
      else if debitAcc.balance.amount < tx.amount.amount then
        (some (.insufficientFunds tx.debitAccount), s)
      else
        -- Perform the transaction (two pointer mutations, in order).
        let accs1 := updBal s.accounts tx.debitAccount (fun b => b - tx.amount.amount)
        let accs2 := updBal accs1 tx.creditAccount (fun b => b + tx.amount.amount)
        -- Verify the books are balanced, reading the mutated balances
        -- back through the two pointers.
        let debitAfter := balRead accs2 tx.debitAccount
        let creditAfter := balRead accs2 tx.creditAccount
        let totalChange := (initialDebitBalance - debitAfter) - (creditAfter - initialCreditBalance)
        if totalChange ≠ 0 then
          -- Rollback: both balances restored, so the observable state is `s`.
          (some (.unbalanced totalChange tx.amount.currency), s)
        else
          (none, { s with accounts := accs2, transactions := s.transactions ++ [tx] })

/-- Model of `GetAccountBalance` (ledger.go). -/
def getAccountBalance (s : LState) (accountID : String) : Except LError Money :=
  match lookupA s.accounts accountID with
  | none => .error (.accountNotFound accountID)
  | some account => .ok account.balance

/-- Model of `GetTransactionHistory` (ledger.go): scan the log, appending every
transaction in which the account participates. -/
def getTransactionHistory (s : LState) (accountID : String) : List Transaction :=
  s.transactions.foldl
    (fun history tx =>
      if tx.debitAccount == accountID || tx.creditAccount == accountID then
        history ++ [tx]
      else
        history)
    []

/-- The per-currency balance total accumulated by `VerifyLedgerBalance`'s
grouping loop. -/
def sumCur : List (String × Account) → String → ℚ
  | [], _ => 0
  | p :: rest, c => (if p.2.currency = c then p.2.balance.amount else 0) + sumCur rest c

/-- Model of `VerifyLedgerBalance` (ledger.go): group accounts by currency, sum
each group, and report the first currency whose total is not exactly
zero (the Go map iteration order is arbitrary; which unbalanced currency
is reported is not part of any claim). -/
def verifyLedgerBalance (s : LState) : Option LError :=
  match ((s.accounts.map (fun p => p.2.currency)).dedup).find?
      (fun c => sumCur s.accounts c ≠ 0) with
  | some c => some (.unbalanced (sumCur s.accounts c) c)
  | none => none

/-- A finite sequence of `RecordTransaction` calls that must all succeed;
`none` as soon as one fails. -/
def applyAll : LState → List Transaction → Option LState
  | s, [] => some s
  | s, tx :: rest =>
    if (recordTransaction s tx).1 = none then applyAll (recordTransaction s tx).2 rest
    else none

/-- The balance amount currently stored for `id`, when the account
exists. -/
def balOf (s : LState) (id : String) : Option ℚ :=
  (lookupA s.accounts id).map (fun a => a.balance.amount)

/-- Every currency's account balances sum to zero (the state of a ledger
whose opening balances net to zero per currency). -/
def Balanced (s : LState) : Prop :=
  ∀ c, sumCur s.accounts c = 0

/-- Whether a result is the `UnbalancedTransaction` defensive error. -/
def isUnbalancedErr : Option LError → Bool
  | some (.unbalanced _ _) => true
  | _ => false

/-! ### Concrete fixtures used by witnesses and counterexamples -/

/-- An asset account `A` holding 5 USD. -/
def accA : Account := ⟨"A", "Account A", ⟨5, "USD"⟩, "asset", "USD"⟩

/-- A liability account `B` holding -5 USD (so `{A, B}` is balanced). -/
def accB : Account := ⟨"B", "Account B", ⟨-5, "USD"⟩, "liability", "USD"⟩

/-- A balanced two-account state: `A` at 5 USD, `B` at -5 USD. -/
def sBal : LState := ⟨[("A", accA), ("B", accB)], [], ["USD"]⟩

/-- A 2 USD transfer from `A` to `B`. -/
def txAB2 : Transaction := ⟨"T1", "transfer", "A", "B", ⟨2, "USD"⟩⟩

/-- A 3 USD transfer whose debit and credit party are both `A`. -/
def txAA3 : Transaction := ⟨"T2", "self transfer", "A", "A", ⟨3, "USD"⟩⟩

/-- A 100 USD transfer from `A` to `B` (exceeding `A`'s 5 USD). -/
def txAB100 : Transaction := ⟨"T3", "transfer", "A", "B", ⟨100, "USD"⟩⟩

/-- A zero-balance USD asset account `A`. -/
def accA0 : Account := ⟨"A", "Account A", ⟨0, "USD"⟩, "asset", "USD"⟩

/-- A zero-balance USD asset account `B`. -/
def accB0 : Account := ⟨"B", "Account B", ⟨0, "USD"⟩, "asset", "USD"⟩

/-- A state with two zero-balance USD accounts `A` and `B`. -/
def sZero : LState := ⟨[("A", accA0), ("B", accB0)], [], ["USD"]⟩

/-- A transfer of -5 USD from `A` to `B`. -/
def txNeg5 : Transaction := ⟨"T4", "negative transfer", "A", "B", ⟨-5, "USD"⟩⟩

/-- An empty ledger that accepts only the currency `USD`. -/
def sUSD : LState := ⟨[], [], ["USD"]⟩

/-- The end-to-end scenario's asset account `1001` (USD, balance 0). -/
def acc1001 : Account := ⟨"1001", "Cash", ⟨0, "USD"⟩, "asset", "USD"⟩

/-- The end-to-end scenario's liability account `2001` (USD, balance 0). -/
def acc2001 : Account := ⟨"2001", "Loan", ⟨0, "USD"⟩, "liability", "USD"⟩

/-- The end-to-end scenario's 500.00 USD transfer from `1001` to `2001`. -/
def tx500 : Transaction := ⟨"TX1", "transfer", "1001", "2001", ⟨500, "USD"⟩⟩

/-- The state after creating `1001` and `2001` in the empty USD ledger. -/
def sScenario : LState := (createAccount (createAccount sUSD acc1001).2 acc2001).2

/-- An account with currency `USD` but a zero balance declared in `EUR`. -/
def accEUR0 : Account := ⟨"3001", "Mixed", ⟨0, "EUR"⟩, "asset", "USD"⟩

/-- An account with currency `USD` and a non-zero balance declared in `EUR`. -/
def accEUR7 : Account := ⟨"3002", "Mixed", ⟨7, "EUR"⟩, "asset", "USD"⟩

/-- A state whose log holds one transaction between `A` and `B`. -/
def sHist : LState := ⟨sBal.accounts, [txAB2], ["USD"]⟩

/-! ### Association-list lemmas -/

theorem lookupA_append_fresh (l : List (String × Account)) (i : String) (a : Account)
    (h : lookupA l i = none) : lookupA (l ++ [(i, a)]) i = some a := by
  induction l with
  | nil => simp [lookupA]
  | cons p rest ih =>
    simp only [lookupA] at h ⊢
    rcases eq_or_ne p.1 i with hp | hp
    · simp [hp] at h
    · simp only [hp, if_neg hp] at h ⊢
      exact ih h

theorem lookupA_updBal_self (l : List (String × Account)) (i : String) (g : ℚ → ℚ)
    (a : Account) (h : lookupA l i = some a) :
    lookupA (updBal l i g) i
      = some { a with balance := ⟨g a.balance.amount, a.balance.currency⟩ } := by
  induction l with
  | nil => simp [lookupA] at h
  | cons p rest ih =>
    by_cases hp : p.1 = i
    · rw [lookupA, if_pos hp] at h
      have ha := Option.some.inj h
      subst ha
      simp [updBal, lookupA, hp]
    · rw [lookupA, if_neg hp] at h
      have := ih h
      simp [updBal, lookupA, hp, this]

theorem lookupA_updBal_ne (l : List (String × Account)) (i j : String) (g : ℚ → ℚ)
    (h : j ≠ i) : lookupA (updBal l i g) j = lookupA l j := by
  induction l with
  | nil => simp [updBal]
  | cons p rest ih =>
    by_cases hp : p.1 = i
    · have hij : i ≠ j := fun hc => h hc.symm
      simp [updBal, lookupA, hp, hij]
    · by_cases hq : p.1 = j
      · simp [updBal, lookupA, hp, hq, h]
      · simp [updBal, lookupA, hp, hq, ih]

theorem sumCur_updBal (l : List (String × Account)) (i : String) (g : ℚ → ℚ)
    (a : Account) (c : String) (h : lookupA l i = some a) :
    sumCur (updBal l i g) c
      = sumCur l c + (if a.currency = c then g a.balance.amount - a.balance.amount else 0) := by
  induction l with
  | nil => simp [lookupA] at h
  | cons p rest ih =>
    by_cases hp : p.1 = i
    · rw [lookupA, if_pos hp] at h
      have ha := Option.some.inj h
      subst ha
      by_cases hc : p.2.currency = c
      · simp only [updBal, if_pos hp, sumCur, if_pos hc]
        ring
      · simp only [updBal, if_pos hp, sumCur, if_neg hc]
        ring
    · rw [lookupA, if_neg hp] at h
      simp only [updBal, if_neg hp, sumCur, ih h]
      ring

theorem balRead_eq (l : List (String × Account)) (i : String) (a : Account)
    (h : lookupA l i = some a) : balRead l i = a.balance.amount := by
  simp [balRead, h]

/-- After the two pointer mutations of `RecordTransaction`, the net
change recomputed from the mutated balances is exactly zero — both when
the two pointers are distinct and when they alias the same account. -/
theorem totalChange_zero (l : List (String × Account)) (i j : String) (amt : ℚ)
    (d c : Account) (hd : lookupA l i = some d) (hc : lookupA l j = some c) :
    (d.balance.amount
        - balRead (updBal (updBal l i (fun b => b - amt)) j (fun b => b + amt)) i)
      - (balRead (updBal (updBal l i (fun b => b - amt)) j (fun b => b + amt)) j
        - c.balance.amount) = 0 := by
  by_cases hij : i = j
  · subst hij
    rw [hd] at hc
    have hdc := Option.some.inj hc
    subst hdc
    have h1 := lookupA_updBal_self l i (fun b => b - amt) d hd
    have h2 := lookupA_updBal_self _ i (fun b => b + amt) _ h1
    rw [balRead_eq _ _ _ h2]
    ring
  · have hji : j ≠ i := fun hcon => hij hcon.symm
    have h1 := lookupA_updBal_self l i (fun b => b - amt) d hd
    have h1' : lookupA (updBal l i (fun b => b - amt)) j = some c := by
      rw [lookupA_updBal_ne _ _ _ _ hji]; exact hc
    have h2 := lookupA_updBal_self _ j (fun b => b + amt) c h1'
    have h3 : lookupA (updBal (updBal l i (fun b => b - amt)) j (fun b => b + amt)) i
        = some { d with balance := ⟨d.balance.amount - amt, d.balance.currency⟩ } := by
      rw [lookupA_updBal_ne _ _ _ _ hij]; exact h1
    rw [balRead_eq _ _ _ h2, balRead_eq _ _ _ h3]
    ring

/-- When all four checks pass, `RecordTransaction` commits: the defensive
post-mutation check cannot fire, both balances are updated, and the
transaction is appended. -/
theorem recordTransaction_success (s : LState) (tx : Transaction) (d c : Account)
    (hd : lookupA s.accounts tx.debitAccount = some d)
    (hc : lookupA s.accounts tx.creditAccount = some c)
    (h1 : d.currency = tx.amount.currency) (h2 : c.currency = tx.amount.currency)
    (h3 : ¬ d.balance.amount < tx.amount.amount) :
    recordTransaction s tx =
      (none, { s with
        accounts := updBal (updBal s.accounts tx.debitAccount (fun b => b - tx.amount.amount))
          tx.creditAccount (fun b => b + tx.amount.amount),
        transactions := s.transactions ++ [tx] }) := by
  have hcur : ¬ (d.currency ≠ tx.amount.currency ∨ c.currency ≠ tx.amount.currency) := by
    simp [h1, h2]
  have hzero := totalChange_zero s.accounts tx.debitAccount tx.creditAccount
    tx.amount.amount d c hd hc
  simp only [recordTransaction, hd, hc, if_neg hcur, if_neg h3]
  rw [if_neg (not_not_intro hzero)]

/-- Characterization of a successful `RecordTransaction` call: all four
checks passed and the new state is the committed one. -/
theorem recordTransaction_ok (s : LState) (tx : Transaction) (s' : LState)
    (h : recordTransaction s tx = (none, s')) :
    ∃ d c, lookupA s.accounts tx.debitAccount = some d ∧
      lookupA s.accounts tx.creditAccount = some c ∧
      d.currency = tx.amount.currency ∧ c.currency = tx.amount.currency ∧
      ¬ d.balance.amount < tx.amount.amount ∧
      s' = { s with
        accounts := updBal (updBal s.accounts tx.debitAccount (fun b => b - tx.amount.amount))
          tx.creditAccount (fun b => b + tx.amount.amount),
        transactions := s.transactions ++ [tx] } := by
  cases hd : lookupA s.accounts tx.debitAccount with
  | none => simp [recordTransaction, hd] at h
  | some d =>
    cases hc : lookupA s.accounts tx.creditAccount with
    | none => simp [recordTransaction, hd, hc] at h
    | some c =>
      by_cases h1 : d.currency = tx.amount.currency
      · by_cases h2 : c.currency = tx.amount.currency
        · by_cases h3 : d.balance.amount < tx.amount.amount
          · simp [recordTransaction, hd, hc, h1, h2, h3] at h
          · rw [recordTransaction_success s tx d c hd hc h1 h2 h3] at h
            exact ⟨d, c, rfl, rfl, h1, h2, h3, (congrArg Prod.snd h).symm⟩
        · simp [recordTransaction, hd, hc, h2] at h
      · simp [recordTransaction, hd, hc, h1] at h

/-- A successful `RecordTransaction` call leaves every per-currency
balance total unchanged (both mutations act inside the transaction's
single currency and cancel). -/
theorem sumCur_recordTransaction (s : LState) (tx : Transaction) (s' : LState)
    (h : recordTransaction s tx = (none, s')) (γ : String) :
    sumCur s'.accounts γ = sumCur s.accounts γ := by
  obtain ⟨d, c, hd, hc, h1, h2, _h3, rfl⟩ := recordTransaction_ok s tx s' h
  have e1 := sumCur_updBal s.accounts tx.debitAccount (fun b => b - tx.amount.amount) d γ hd
  by_cases hdc : tx.creditAccount = tx.debitAccount
  · have hc' : lookupA s.accounts tx.debitAccount = some c := hdc ▸ hc
    have hcd : c = d := Option.some.inj (hc'.symm.trans hd)
    have e2 : lookupA (updBal s.accounts tx.debitAccount (fun b => b - tx.amount.amount))
        tx.creditAccount
        = some { d with balance := ⟨d.balance.amount - tx.amount.amount, d.balance.currency⟩ } := by
      rw [hdc]
      exact lookupA_updBal_self s.accounts tx.debitAccount _ d hd
    have e3 := sumCur_updBal
      (updBal s.accounts tx.debitAccount (fun b => b - tx.amount.amount))
      tx.creditAccount (fun b => b + tx.amount.amount) _ γ e2
    simp only [e3, e1]
    by_cases hγ : d.currency = γ
    · simp only [if_pos hγ]
      ring
    · simp only [if_neg hγ]
      ring
  · have e2 : lookupA (updBal s.accounts tx.debitAccount (fun b => b - tx.amount.amount))
        tx.creditAccount = some c := by
      rw [lookupA_updBal_ne _ _ _ _ hdc]
      exact hc
    have e3 := sumCur_updBal
      (updBal s.accounts tx.debitAccount (fun b => b - tx.amount.amount))
      tx.creditAccount (fun b => b + tx.amount.amount) _ γ e2
    simp only [e3, e1]
    rw [h1, h2]
    by_cases hγ : tx.amount.currency = γ
    · simp only [if_pos hγ]
      ring
    · simp only [if_neg hγ]
      ring

/-- A balanced ledger passes `VerifyLedgerBalance`. -/
theorem verify_of_balanced (s : LState) (h : Balanced s) :
    verifyLedgerBalance s = none := by
  unfold verifyLedgerBalance
  have hfind : ((s.accounts.map (fun p => p.2.currency)).dedup).find?
      (fun c => sumCur s.accounts c ≠ 0) = none := by
    rw [List.find?_eq_none]
    intro c _
    simp [h c]
  rw [hfind]

/-- The `Balanced` predicate is preserved by one successful `RecordTransaction`. -/
theorem balanced_step (s : LState) (tx : Transaction) (s' : LState)
    (h : recordTransaction s tx = (none, s')) (hb : Balanced s) : Balanced s' :=
  fun c => (sumCur_recordTransaction s tx s' h c).trans (hb c)

/-- The `Balanced` predicate is preserved by any sequence of successful
`RecordTransaction` calls. -/
theorem balanced_applyAll (txs : List Transaction) :
    ∀ s s', Balanced s → applyAll s txs = some s' → Balanced s' := by
  induction txs with
  | nil =>
    intro s s' hb h
    simp only [applyAll, Option.some.injEq] at h
    exact h ▸ hb
  | cons tx rest ih =>
    intro s s' hb h
    simp only [applyAll] at h
    by_cases h1 : (recordTransaction s tx).1 = none
    · rw [if_pos h1] at h
      have hpair : recordTransaction s tx = (none, (recordTransaction s tx).2) := by
        rw [← h1]
      exact ih _ s' (balanced_step s tx _ hpair hb) h
    · rw [if_neg h1] at h
      exact absurd h (by simp)

/-- One successful `RecordTransaction` with a non-negative amount keeps
every non-negative balance non-negative. -/
theorem nonneg_step (s : LState) (tx : Transaction) (s' : LState)
    (h : recordTransaction s tx = (none, s')) (hamt : 0 ≤ tx.amount.amount)
    (x : String) (b : ℚ) (hx : balOf s x = some b) (hb : 0 ≤ b) :
    ∃ b', balOf s' x = some b' ∧ 0 ≤ b' := by
  obtain ⟨d, c, hd, hc, _h1, _h2, h3, rfl⟩ := recordTransaction_ok s tx s' h
  simp only [balOf]
  by_cases hxi : x = tx.debitAccount
  · have hd' : lookupA s.accounts x = some d := by rw [hxi]; exact hd
    have hdb : d.balance.amount = b := by
      rw [balOf, hd'] at hx
      exact Option.some.inj hx
    by_cases hxj : x = tx.creditAccount
    · -- aliased: the two mutations cancel
      have e1 := lookupA_updBal_self s.accounts tx.debitAccount
        (fun b => b - tx.amount.amount) d hd
      have e2 : lookupA (updBal (updBal s.accounts tx.debitAccount
          (fun b => b - tx.amount.amount)) tx.creditAccount (fun b => b + tx.amount.amount)) x
          = some { d with balance :=
              ⟨d.balance.amount - tx.amount.amount + tx.amount.amount, d.balance.currency⟩ } := by
        rw [hxj]
        have e1' : lookupA (updBal s.accounts tx.debitAccount
            (fun b => b - tx.amount.amount)) tx.creditAccount
            = some { d with balance :=
                ⟨d.balance.amount - tx.amount.amount, d.balance.currency⟩ } := by
          rw [← hxj, hxi]
          exact e1
        exact lookupA_updBal_self _ tx.creditAccount (fun b => b + tx.amount.amount) _ e1'
      rw [e2]
      refine ⟨d.balance.amount - tx.amount.amount + tx.amount.amount, rfl, ?_⟩
      rw [sub_add_cancel, hdb]
      exact hb
    · have e1 := lookupA_updBal_self s.accounts tx.debitAccount
        (fun b => b - tx.amount.amount) d hd
      have e2 : lookupA (updBal (updBal s.accounts tx.debitAccount
          (fun b => b - tx.amount.amount)) tx.creditAccount (fun b => b + tx.amount.amount)) x
          = some { d with balance := ⟨d.balance.amount - tx.amount.amount, d.balance.currency⟩ } := by
        rw [lookupA_updBal_ne _ _ _ _ hxj, hxi]
        exact e1
      rw [e2]
      refine ⟨d.balance.amount - tx.amount.amount, rfl, ?_⟩
      rw [not_lt] at h3
      linarith
  · by_cases hxj : x = tx.creditAccount
    · have hc' : lookupA s.accounts x = some c := by rw [hxj]; exact hc
      have hcb : c.balance.amount = b := by
        rw [balOf, hc'] at hx
        exact Option.some.inj hx
      have e1 : lookupA (updBal s.accounts tx.debitAccount
          (fun b => b - tx.amount.amount)) tx.creditAccount = some c := by
        rw [lookupA_updBal_ne]
        · rw [← hxj]; exact hc'
        · rw [← hxj]; exact hxi
      have e2 : lookupA (updBal (updBal s.accounts tx.debitAccount
          (fun b => b - tx.amount.amount)) tx.creditAccount (fun b => b + tx.amount.amount)) x
          = some { c with balance := ⟨c.balance.amount + tx.amount.amount, c.balance.currency⟩ } := by
        rw [hxj]
        exact lookupA_updBal_self _ tx.creditAccount (fun b => b + tx.amount.amount) c e1
      rw [e2]
      refine ⟨c.balance.amount + tx.amount.amount, rfl, ?_⟩
      rw [hcb]
      linarith
    · rw [lookupA_updBal_ne _ _ _ _ hxj, lookupA_updBal_ne _ _ _ _ hxi]
      rw [balOf] at hx
      cases hlx : lookupA s.accounts x with
      | none => rw [hlx] at hx; simp at hx
      | some a =>
        rw [hlx] at hx
        refine ⟨a.balance.amount, rfl, ?_⟩
        have : a.balance.amount = b := Option.some.inj hx
        rw [this]
        exact hb

/-- Non-negativity of a balance is preserved by any sequence of
successful `RecordTransaction` calls whose amounts are non-negative. -/
theorem nonneg_applyAll (txs : List Transaction) :
    ∀ s s' x b, (∀ tx ∈ txs, 0 ≤ tx.amount.amount) → applyAll s txs = some s' →
      balOf s x = some b → 0 ≤ b → ∃ b', balOf s' x = some b' ∧ 0 ≤ b' := by
  induction txs with
  | nil =>
    intro s s' x b _ h hx hb
    simp only [applyAll, Option.some.injEq] at h
    exact ⟨b, h ▸ hx, hb⟩
  | cons tx rest ih =>
    intro s s' x b hpos h hx hb
    simp only [applyAll] at h
    by_cases h1 : (recordTransaction s tx).1 = none
    · rw [if_pos h1] at h
      have hpair : recordTransaction s tx = (none, (recordTransaction s tx).2) := by
        rw [← h1]
      obtain ⟨b1, hx1, hb1⟩ := nonneg_step s tx _ hpair
        (hpos tx (List.mem_cons_self tx rest)) x b hx hb
      exact ih _ s' x b1 (fun t ht => hpos t (List.mem_cons_of_mem tx ht)) h hx1 hb1
    · rw [if_neg h1] at h
      exact absurd h (by simp)

/-- The history loop of `GetTransactionHistory` is the participant
filter of the log. -/
theorem history_eq_filter (txs : List Transaction) (id : String) (acc : List Transaction) :
    txs.foldl
      (fun history tx =>
        if tx.debitAccount == id || tx.creditAccount == id then history ++ [tx] else history)
      acc
      = acc ++ txs.filter (fun tx => tx.debitAccount == id || tx.creditAccount == id) := by
  induction txs generalizing acc with
  | nil => simp
  | cons tx rest ih =>
    simp only [List.foldl_cons, List.filter_cons]
    by_cases hp : (tx.debitAccount == id || tx.creditAccount == id) = true
    · rw [if_pos hp, if_pos hp, ih]
      simp
    · rw [if_neg hp, if_neg hp, ih]

/-- The model of `GetTransactionHistory` denotes the participant filter of the log. -/
theorem getHistory_eq (s : LState) (id : String) :
    getTransactionHistory s id
      = s.transactions.filter (fun tx => tx.debitAccount == id || tx.creditAccount == id) := by
  unfold getTransactionHistory
  rw [history_eq_filter]
  exact List.nil_append _

/-! ### The claims -/

/-- Claim C1: starting from any engine state in which every currency's
account balances sum to exactly zero, after every finite sequence of
successful `RecordTransaction` calls, `VerifyLedgerBalance` returns no
error. -/
theorem verifyLedgerBalance_ok_after_transactions (s : LState) (txs : List Transaction)
    (s' : LState) (hb : Balanced s) (h : applyAll s txs = some s') :
    verifyLedgerBalance s' = none :=
  verify_of_balanced s' (balanced_applyAll txs s s' hb h)

/-- Witness for C1: the balanced ledger `{A: 5 USD, B: -5 USD}` still
passes `VerifyLedgerBalance` after the 2 USD transfer from `A` to `B`. -/
theorem verifyLedgerBalance_ok_after_transactions_witness :
    verifyLedgerBalance
      ⟨[("A", ⟨"A", "Account A", ⟨3, "USD"⟩, "asset", "USD"⟩),
        ("B", ⟨"B", "Account B", ⟨-3, "USD"⟩, "liability", "USD"⟩)], [txAB2], ["USD"]⟩
      = none :=
  verifyLedgerBalance_ok_after_transactions sBal [txAB2] _
    (by
      intro c
      by_cases h : ("USD" = c) <;> simp [sBal, accA, accB, sumCur, h])
    (by
      simp [applyAll, recordTransaction, sBal, accA, accB, txAB2, lookupA, updBal, balRead]
      norm_num)

/-- Counterexample to C2: the engine accepts a transaction whose debit
and credit party are the same account; the call succeeds, yet the debit
account's balance is not decreased by the (non-zero) amount. -/
theorem record_alias_no_debit_decrease_counterexample :
    (recordTransaction sBal txAA3).1 = none ∧
    balOf sBal "A" = some 5 ∧
    balOf (recordTransaction sBal txAA3).2 "A" = some 5 ∧
    (5 : ℚ) ≠ 5 - 3 := by
  refine ⟨?_, rfl, ?_, by norm_num⟩
  · simp [recordTransaction, sBal, accA, accB, txAA3, lookupA, updBal, balRead]
    norm_num
  · simp [recordTransaction, sBal, accA, accB, txAA3, lookupA, updBal, balRead, balOf]

/-- Claim C2 (amended): every successful `RecordTransaction` conserves
the combined balance of the two participating accounts; when the debit
and credit accounts are distinct, the debit balance decreases and the
credit balance increases by exactly the transaction amount.  (As stated
the claim fails when the two parties alias the same account: the call
can succeed with a non-zero amount and the balance is unchanged.) -/
theorem recordTransaction_conserves_value (s : LState) (tx : Transaction) (s' : LState)
    (db cb : ℚ) (h : recordTransaction s tx = (none, s'))
    (hdb : balOf s tx.debitAccount = some db) (hcb : balOf s tx.creditAccount = some cb) :
    ∃ db' cb', balOf s' tx.debitAccount = some db' ∧ balOf s' tx.creditAccount = some cb' ∧
      db' + cb' = db + cb ∧
      (tx.debitAccount ≠ tx.creditAccount →
        db' = db - tx.amount.amount ∧ cb' = cb + tx.amount.amount) := by
  obtain ⟨d, c, hd, hc, _h1, _h2, _h3, rfl⟩ := recordTransaction_ok s tx s' h
  have hdb' : d.balance.amount = db := by
    rw [balOf, hd] at hdb
    exact Option.some.inj hdb
  have hcb' : c.balance.amount = cb := by
    rw [balOf, hc] at hcb
    exact Option.some.inj hcb
  by_cases hdc : tx.debitAccount = tx.creditAccount
  · -- aliased: both lookups hit the same updated entry, whose balance is
    -- (db - amount) + amount = db
    rw [hdc] at hd ⊢
    have hcd : c = d := Option.some.inj (hc.symm.trans hd)
    have e1 := lookupA_updBal_self s.accounts tx.creditAccount
      (fun b => b - tx.amount.amount) d hd
    have e2 := lookupA_updBal_self _ tx.creditAccount (fun b => b + tx.amount.amount) _ e1
    refine ⟨d.balance.amount - tx.amount.amount + tx.amount.amount,
      d.balance.amount - tx.amount.amount + tx.amount.amount, ?_, ?_, ?_, ?_⟩
    · simp [balOf, e2]
    · simp [balOf, e2]
    · have hcbd : cb = db := by rw [← hcb', hcd, hdb']
      rw [sub_add_cancel, hdb', hcbd]
    · intro hne
      exact absurd rfl hne
  · have e1 := lookupA_updBal_self s.accounts tx.debitAccount
      (fun b => b - tx.amount.amount) d hd
    have e2 : lookupA (updBal (updBal s.accounts tx.debitAccount
        (fun b => b - tx.amount.amount)) tx.creditAccount (fun b => b + tx.amount.amount))
        tx.debitAccount
        = some { d with balance := ⟨d.balance.amount - tx.amount.amount, d.balance.currency⟩ } := by
      rw [lookupA_updBal_ne _ _ _ _ hdc]
      exact e1
    have e3 : lookupA (updBal s.accounts tx.debitAccount
        (fun b => b - tx.amount.amount)) tx.creditAccount = some c := by
      rw [lookupA_updBal_ne _ _ _ _ (fun hq => hdc hq.symm)]
      exact hc
    have e4 := lookupA_updBal_self _ tx.creditAccount (fun b => b + tx.amount.amount) c e3
    refine ⟨d.balance.amount - tx.amount.amount, c.balance.amount + tx.amount.amount,
      ?_, ?_, ?_, ?_⟩
    · simp [balOf, e2]
    · simp [balOf, e4]
    · rw [hdb', hcb']
      ring
    · intro _
      rw [hdb', hcb']
      exact ⟨rfl, rfl⟩

/-- Witness for C2 (amended): the 2 USD transfer from `A` (5 USD) to `B`
(-5 USD) conserves value and moves exactly 2 USD. -/
theorem recordTransaction_conserves_value_witness :
    ∃ db' cb',
      balOf ⟨[("A", ⟨"A", "Account A", ⟨3, "USD"⟩, "asset", "USD"⟩),
        ("B", ⟨"B", "Account B", ⟨-3, "USD"⟩, "liability", "USD"⟩)], [txAB2], ["USD"]⟩
        txAB2.debitAccount = some db' ∧
      balOf ⟨[("A", ⟨"A", "Account A", ⟨3, "USD"⟩, "asset", "USD"⟩),
        ("B", ⟨"B", "Account B", ⟨-3, "USD"⟩, "liability", "USD"⟩)], [txAB2], ["USD"]⟩
        txAB2.creditAccount = some cb' ∧
      db' + cb' = 5 + (-5) ∧
      (txAB2.debitAccount ≠ txAB2.creditAccount →
        db' = 5 - txAB2.amount.amount ∧ cb' = -5 + txAB2.amount.amount) :=
  recordTransaction_conserves_value sBal txAB2 _ 5 (-5)
    (by
      simp [recordTransaction, sBal, accA, accB, txAB2, lookupA, updBal, balRead]
      norm_num)
    rfl rfl

/-- Claim C3: when both accounts exist and both currencies match the
transaction's, `RecordTransaction` fails with `InsufficientFunds` exactly
when the debit balance is strictly below the amount, and on that failure
the whole ledger state (balances and log) is unchanged. -/
theorem recordTransaction_insufficientFunds_iff (s : LState) (tx : Transaction)
    (d c : Account) (hd : lookupA s.accounts tx.debitAccount = some d)
    (hc : lookupA s.accounts tx.creditAccount = some c)
    (h1 : d.currency = tx.amount.currency) (h2 : c.currency = tx.amount.currency) :
    ((recordTransaction s tx).1 = some (.insufficientFunds tx.debitAccount)
        ↔ d.balance.amount < tx.amount.amount) ∧
    (d.balance.amount < tx.amount.amount → (recordTransaction s tx).2 = s) := by
  have hcur : ¬ (d.currency ≠ tx.amount.currency ∨ c.currency ≠ tx.amount.currency) := by
    simp [h1, h2]
  by_cases h3 : d.balance.amount < tx.amount.amount
  · have hres : recordTransaction s tx = (some (.insufficientFunds tx.debitAccount), s) := by
      simp only [recordTransaction, hd, hc, if_neg hcur, if_pos h3]
    rw [hres]
    exact ⟨by simp [h3], fun _ => rfl⟩
  · rw [recordTransaction_success s tx d c hd hc h1 h2 h3]
    exact ⟨by simp [h3], fun hcon => absurd hcon h3⟩

/-- Witness for C3: transferring 100 USD out of `A`, which holds 5 USD,
fails with `InsufficientFunds` and leaves the state untouched. -/
theorem recordTransaction_insufficientFunds_iff_witness :
    ((recordTransaction sBal txAB100).1 = some (.insufficientFunds txAB100.debitAccount)
        ↔ accA.balance.amount < txAB100.amount.amount) ∧
    (accA.balance.amount < txAB100.amount.amount → (recordTransaction sBal txAB100).2 = sBal) :=
  recordTransaction_insufficientFunds_iff sBal txAB100 accA accB rfl rfl rfl rfl

/-- Counterexample to C4: in the spec's end-to-end scenario the 500.00
USD transfer out of the freshly created zero-balance account `1001` does
not succeed — it fails the sufficient-funds check (0 < 500). -/
theorem scenario_record_fails_counterexample :
    (recordTransaction sScenario tx500).1 = some (.insufficientFunds "1001") := by
  simp [recordTransaction, sScenario, sUSD, acc1001, acc2001, tx500, createAccount,
    lookupA, updBal, balRead]

/-- Claim C4 (amended): creating accounts `1001` (asset, USD, balance 0)
and `2001` (liability, USD, balance 0) succeeds, but the subsequent
`RecordTransaction` of 500.00 USD debiting `1001` fails with
`InsufficientFunds` because `1001`'s balance 0 is strictly less than 500;
afterwards both `GetAccountBalance` calls still return 0 USD and
`GetTransactionHistory("1001")` returns the empty sequence. -/
theorem scenario_end_to_end :
    (createAccount sUSD acc1001).1 = none ∧
    (createAccount (createAccount sUSD acc1001).2 acc2001).1 = none ∧
    (recordTransaction sScenario tx500).1 = some (.insufficientFunds "1001") ∧
    getAccountBalance (recordTransaction sScenario tx500).2 "1001" = .ok ⟨0, "USD"⟩ ∧
    getAccountBalance (recordTransaction sScenario tx500).2 "2001" = .ok ⟨0, "USD"⟩ ∧
    getTransactionHistory (recordTransaction sScenario tx500).2 "1001" = [] := by
  refine ⟨?_, ?_, ?_, ?_, ?_, ?_⟩ <;>
    simp [recordTransaction, sScenario, sUSD, acc1001, acc2001, tx500, createAccount,
      lookupA, updBal, balRead, getAccountBalance, getTransactionHistory]

/-- Counterexample to C5: both `A` and `B` are created with balance 0
(non-negative), yet recording a transaction of amount -5 USD succeeds and
leaves the credit account `B` with the strictly negative balance -5. -/
theorem negative_amount_breaks_nonneg_counterexample :
    (recordTransaction sZero txNeg5).1 = none ∧
    balOf sZero "B" = some 0 ∧
    balOf (recordTransaction sZero txNeg5).2 "B" = some (-5) ∧
    ((-5 : ℚ) < 0) := by
  refine ⟨?_, rfl, ?_, by norm_num⟩
  · simp [recordTransaction, sZero, accA0, accB0, txNeg5, lookupA, updBal, balRead]
    norm_num
  · simp [recordTransaction, sZero, accA0, accB0, txNeg5, lookupA, updBal, balRead, balOf]

/-- Claim C5 (amended): for every account holding a non-negative balance,
no sequence of successful `RecordTransaction` calls whose amounts are all
non-negative ever makes that balance strictly negative.  (As stated the
claim fails: the engine applies no sign check to amounts, and a negative
amount can drive the credit account's balance below zero.) -/
theorem nonneg_balance_preserved (s : LState) (txs : List Transaction) (s' : LState)
    (x : String) (b : ℚ) (hpos : ∀ tx ∈ txs, 0 ≤ tx.amount.amount)
    (h : applyAll s txs = some s') (hx : balOf s x = some b) (hb : 0 ≤ b) :
    ∃ b', balOf s' x = some b' ∧ 0 ≤ b' :=
  nonneg_applyAll txs s s' x b hpos h hx hb

/-- Witness for C5 (amended): account `A` stays non-negative across the
2 USD transfer from `A` to `B`. -/
theorem nonneg_balance_preserved_witness :
    ∃ b', balOf ⟨[("A", ⟨"A", "Account A", ⟨3, "USD"⟩, "asset", "USD"⟩),
      ("B", ⟨"B", "Account B", ⟨-3, "USD"⟩, "liability", "USD"⟩)], [txAB2], ["USD"]⟩
      "A" = some b' ∧ 0 ≤ b' :=
  nonneg_balance_preserved sBal [txAB2] _ "A" 5
    (by
      intro t ht
      simp only [List.mem_singleton] at ht
      subst ht
      norm_num [txAB2])
    (by
      simp [applyAll, recordTransaction, sBal, accA, accB, txAB2, lookupA, updBal, balRead]
      norm_num)
    rfl (by norm_num)

/-- Claim C6: the defensive post-mutation balance check of
`RecordTransaction` can never fire — in exact decimal arithmetic the
recomputed net change is always zero, so no call ever returns the
`UnbalancedTransaction` error, for any input and any state. -/
theorem recordTransaction_never_unbalanced (s : LState) (tx : Transaction) :
    isUnbalancedErr (recordTransaction s tx).1 = false := by
  cases hd : lookupA s.accounts tx.debitAccount with
  | none => simp [recordTransaction, hd, isUnbalancedErr]
  | some d =>
    cases hc : lookupA s.accounts tx.creditAccount with
    | none => simp [recordTransaction, hd, hc, isUnbalancedErr]
    | some c =>
      by_cases h1 : d.currency = tx.amount.currency
      · by_cases h2 : c.currency = tx.amount.currency
        · by_cases h3 : d.balance.amount < tx.amount.amount
          · simp [recordTransaction, hd, hc, h1, h2, h3, isUnbalancedErr]
          · rw [recordTransaction_success s tx d c hd hc h1 h2 h3]
            simp [isUnbalancedErr]
        · simp [recordTransaction, hd, hc, h2, isUnbalancedErr]
      · simp [recordTransaction, hd, hc, h1, isUnbalancedErr]

/-- Claim C7: for a fresh identifier and a valid account currency,
`CreateAccount` normalizes any zero opening balance to amount 0 in the
account's currency (regardless of the currency supplied on the zero
balance), and rejects a non-zero opening balance in a different currency
with the currency-mismatch error, mutating nothing. -/
theorem createAccount_balance_rules (s : LState) (a : Account)
    (hfresh : lookupA s.accounts a.id = none) (hval : a.currency ∈ s.validCurrencies) :
    (a.balance.amount = 0 →
      (createAccount s a).1 = none ∧
      lookupA (createAccount s a).2.accounts a.id
        = some { a with balance := ⟨0, a.currency⟩ }) ∧
    (a.balance.amount ≠ 0 → a.balance.currency ≠ a.currency →
      createAccount s a
        = (some (.balanceCurrencyMismatch a.balance.currency a.currency), s)) := by
  constructor
  · intro hz
    have hres : createAccount s a
        = (none, { s with
            accounts := s.accounts ++ [(a.id, { a with balance := ⟨0, a.currency⟩ })] }) := by
      simp only [createAccount, hfresh, if_pos hval, if_pos hz]
    rw [hres]
    exact ⟨rfl, lookupA_append_fresh s.accounts a.id _ hfresh⟩
  · intro hnz hmm
    simp only [createAccount, hfresh, if_pos hval, if_neg hnz, if_pos hmm]

/-- Witness for C7: creating a USD account whose declared opening balance
is zero but tagged `EUR` succeeds, and the stored balance is 0 USD. -/
theorem createAccount_balance_rules_witness :
    (accEUR0.balance.amount = 0 →
      (createAccount sUSD accEUR0).1 = none ∧
      lookupA (createAccount sUSD accEUR0).2.accounts accEUR0.id
        = some { accEUR0 with balance := ⟨0, accEUR0.currency⟩ }) ∧
    (accEUR0.balance.amount ≠ 0 → accEUR0.balance.currency ≠ accEUR0.currency →
      createAccount sUSD accEUR0
        = (some (.balanceCurrencyMismatch accEUR0.balance.currency accEUR0.currency), sUSD)) :=
  createAccount_balance_rules sUSD accEUR0 rfl (by decide)

/-- Claim C8: `GetTransactionHistory` returns exactly the subsequence of
the transaction log naming the account as debit or credit party, in
append order, and returns the empty sequence (the operation cannot fail)
whenever no transaction matches — including for unknown identifiers. -/
theorem getTransactionHistory_spec (s : LState) (id : String) :
    getTransactionHistory s id
      = s.transactions.filter (fun tx => tx.debitAccount == id || tx.creditAccount == id) ∧
    ((∀ tx ∈ s.transactions, tx.debitAccount ≠ id ∧ tx.creditAccount ≠ id) →
      getTransactionHistory s id = []) := by
  refine ⟨getHistory_eq s id, fun hn => ?_⟩
  rw [getHistory_eq, List.filter_eq_nil_iff]
  intro t ht
  have hne := hn t ht
  simp [hne.1, hne.2]

/-- Witness for C8: the identifier `Z`, which names no account and
participates in no transaction, gets the empty history. -/
theorem getTransactionHistory_spec_witness :
    getTransactionHistory sHist "Z" = [] :=
  (getTransactionHistory_spec sHist "Z").2 (by
    intro t ht
    simp only [sHist, List.mem_singleton] at ht
    subst ht
    exact ⟨by decide, by decide⟩)

/-- Claim C9: `RecordTransaction` applies no sign check to the amount:
with distinct existing accounts in the transaction's currency, every
non-positive amount not below the debit balance is accepted, the debit
balance increases by the amount's magnitude, the credit balance
decreases by it (reversing the transfer direction; a zero amount changes
neither), and the transaction is still appended to the log. -/
theorem recordTransaction_nonpositive_amount (s : LState) (tx : Transaction)
    (d c : Account) (hd : lookupA s.accounts tx.debitAccount = some d)
    (hc : lookupA s.accounts tx.creditAccount = some c)
    (hne : tx.debitAccount ≠ tx.creditAccount)
    (h1 : d.currency = tx.amount.currency) (h2 : c.currency = tx.amount.currency)
    (hneg : tx.amount.amount ≤ 0)
    (hsuff : ¬ d.balance.amount < tx.amount.amount) :
    (recordTransaction s tx).1 = none ∧
    balOf (recordTransaction s tx).2 tx.debitAccount
      = some (d.balance.amount - tx.amount.amount) ∧
    d.balance.amount ≤ d.balance.amount - tx.amount.amount ∧
    balOf (recordTransaction s tx).2 tx.creditAccount
      = some (c.balance.amount + tx.amount.amount) ∧
    c.balance.amount + tx.amount.amount ≤ c.balance.amount ∧
    (recordTransaction s tx).2.transactions = s.transactions ++ [tx] := by
  rw [recordTransaction_success s tx d c hd hc h1 h2 hsuff]
  have e1 := lookupA_updBal_self s.accounts tx.debitAccount
    (fun b => b - tx.amount.amount) d hd
  have e2 : lookupA (updBal (updBal s.accounts tx.debitAccount
      (fun b => b - tx.amount.amount)) tx.creditAccount (fun b => b + tx.amount.amount))
      tx.debitAccount
      = some { d with balance := ⟨d.balance.amount - tx.amount.amount, d.balance.currency⟩ } := by
    rw [lookupA_updBal_ne _ _ _ _ hne]
    exact e1
  have e3 : lookupA (updBal s.accounts tx.debitAccount
      (fun b => b - tx.amount.amount)) tx.creditAccount = some c := by
    rw [lookupA_updBal_ne _ _ _ _ (fun hq => hne hq.symm)]
    exact hc
  have e4 := lookupA_updBal_self _ tx.creditAccount (fun b => b + tx.amount.amount) c e3
  refine ⟨rfl, ?_, by linarith, ?_, by linarith, rfl⟩
  · simp [balOf, e2]
  · simp [balOf, e4]

/-- Witness for C9: the -5 USD transfer from `A` to `B` (both holding 0)
succeeds, raising `A` to 5 and lowering `B` to -5. -/
theorem recordTransaction_nonpositive_amount_witness :
    (recordTransaction sZero txNeg5).1 = none ∧
    balOf (recordTransaction sZero txNeg5).2 txNeg5.debitAccount
      = some (accA0.balance.amount - txNeg5.amount.amount) ∧
    accA0.balance.amount ≤ accA0.balance.amount - txNeg5.amount.amount ∧
    balOf (recordTransaction sZero txNeg5).2 txNeg5.creditAccount
      = some (accB0.balance.amount + txNeg5.amount.amount) ∧
    accB0.balance.amount + txNeg5.amount.amount ≤ accB0.balance.amount ∧
    (recordTransaction sZero txNeg5).2.transactions = sZero.transactions ++ [txNeg5] :=
  recordTransaction_nonpositive_amount sZero txNeg5 accA0 accB0 rfl rfl (by decide)
    rfl rfl (by norm_num [txNeg5]) (by norm_num [accA0, txNeg5])

/-- Claim C10: `RecordTransaction` accepts a transaction whose debit and
credit identifiers name the same existing account: given a matching
currency and sufficient balance the call succeeds, the balance is
unchanged (the two mutations cancel through the shared pointer), and the
transaction is still appended and visible in the account's history. -/
theorem recordTransaction_self_transfer (s : LState) (tx : Transaction) (acc : Account)
    (halias : tx.debitAccount = tx.creditAccount)
    (hd : lookupA s.accounts tx.debitAccount = some acc)
    (h1 : acc.currency = tx.amount.currency)
    (hsuff : ¬ acc.balance.amount < tx.amount.amount) :
    (recordTransaction s tx).1 = none ∧
    balOf (recordTransaction s tx).2 tx.debitAccount = some acc.balance.amount ∧
    (recordTransaction s tx).2.transactions = s.transactions ++ [tx] ∧
    getTransactionHistory (recordTransaction s tx).2 tx.debitAccount
      = getTransactionHistory s tx.debitAccount ++ [tx] := by
  have hc : lookupA s.accounts tx.creditAccount = some acc := by
    rw [← halias]
    exact hd
  rw [recordTransaction_success s tx acc acc hd hc h1 h1 hsuff]
  refine ⟨rfl, ?_, rfl, ?_⟩
  · rw [halias]
    have f1 := lookupA_updBal_self s.accounts tx.creditAccount
      (fun b => b - tx.amount.amount) acc hc
    have f2 := lookupA_updBal_self _ tx.creditAccount (fun b => b + tx.amount.amount) _ f1
    simp [balOf, f2, sub_add_cancel]
  · rw [getHistory_eq, getHistory_eq]
    simp [List.filter_append]

/-- Witness for C10: the 3 USD self-transfer on `A` (5 USD) succeeds,
leaves the balance at 5 USD, and appends to `A`'s history. -/
theorem recordTransaction_self_transfer_witness :
    (recordTransaction sBal txAA3).1 = none ∧
    balOf (recordTransaction sBal txAA3).2 txAA3.debitAccount = some accA.balance.amount ∧
    (recordTransaction sBal txAA3).2.transactions = sBal.transactions ++ [txAA3] ∧
    getTransactionHistory (recordTransaction sBal txAA3).2 txAA3.debitAccount
      = getTransactionHistory sBal txAA3.debitAccount ++ [txAA3] :=
  recordTransaction_self_transfer sBal txAA3 accA rfl rfl rfl (by norm_num [accA, txAA3])

end LedgerProject
